import Mathlib

/-!
Verification of the SMA scoring engine.

This file gives a shallow embedding of the scoring pipeline of the
repository (quantitative metric normalization and aggregation from
scripts/scoring_engine.py, qualitative scoring from
scripts/qualitative_scoring_engine.py, score combination and quadrant
assignment from scripts/combine_scores.py, and population-relative tier
assignment from scripts/tier_explainer.py and app.py), and proves or
refutes the specified properties of that pipeline.

Numeric values are modelled as rationals; a possibly-missing cell is an
Option.  Tabular data is modelled as a list of named columns together
with an explicit row count; looking up an absent column yields none,
mirroring a pandas KeyError site when the code does not guard the access.
-/

namespace SMA

/-! ## Quantitative scoring engine (scripts/scoring_engine.py) -/

inductive Direction where
  | higher
  | lower
deriving DecidableEq

/-- Per-metric configuration: weight, missing-data penalty fraction and
direction, as in the dictionaries returned by get_scoring_config. -/
structure MetricCfg where
  weight : ℚ
  penalty : ℚ
  direction : Direction
deriving DecidableEq

/-- The metric table returned by get_scoring_config. -/
def get_scoring_config : List (String × MetricCfg) :=
  [("Alpha (Since Inception)", ⟨1/20, 3/20, Direction.higher⟩),
   ("Historical Sharpe Ratio (3Y)", ⟨1/10, 1/10, Direction.higher⟩),
   ("Historical Sharpe Ratio (5Y)", ⟨1/20, 1/10, Direction.higher⟩),
   ("Information Ratio (vs Category) (3Y)", ⟨1/10, 1/10, Direction.higher⟩),
   ("Information Ratio (vs Category) (5Y)", ⟨1/20, 1/10, Direction.higher⟩),
   ("Max Drawdown (3Y)", ⟨1/10, 1/5, Direction.lower⟩),
   ("Max Drawdown (5Y)", ⟨1/20, 1/5, Direction.lower⟩),
   ("Daily Value at Risk (VaR) 5% (3Y Lookback)", ⟨1/20, 3/20, Direction.lower⟩),
   ("Daily Value at Risk (VaR) 5% (5Y Lookback)", ⟨1/20, 3/20, Direction.lower⟩),
   ("Batting Average (3Y Lookback)", ⟨1/20, 1/10, Direction.higher⟩),
   ("Batting Average (5Y Lookback)", ⟨1/20, 1/10, Direction.higher⟩),
   ("Upside/Downside Ratio (3Y)", ⟨1/10, 1/10, Direction.higher⟩),
   ("Upside/Downside Ratio (5Y)", ⟨1/20, 1/10, Direction.higher⟩)]

/-- validate_weights sums the configured weights, logs a warning when the
sum is more than 0.01 away from 1.0, and returns the sum.  The Bool
records whether the warning branch was taken; no exception is raised. -/
def validate_weights (metrics : List (String × MetricCfg)) : ℚ × Bool :=
  let total := (metrics.map (fun m => m.2.weight)).sum
  (total, decide (1/100 < |total - 1|))

/-- Number of present values strictly below x
(the sub-ties part of an average rank). -/
def countLt (vals : List ℚ) (x : ℚ) : ℕ :=
  vals.countP (fun v => decide (v < x))

/-- Number of present values equal to x (the tie group size). -/
def countEq (vals : List ℚ) (x : ℚ) : ℕ :=
  vals.countP (fun v => decide (v = x))

/-- Number of present values at or below x. -/
def countLe (vals : List ℚ) (x : ℚ) : ℕ :=
  vals.countP (fun v => decide (v ≤ x))

/-- pandas Series.rank(pct=True) with the default average-rank tie
handling: the average rank of x is countLt + (countEq + 1)/2, and the
percentile is that rank divided by the number of ranked values. -/
def pctRank (vals : List ℚ) (x : ℚ) : ℚ :=
  ((countLt vals x : ℚ) + ((countEq vals x : ℚ) + 1) / 2) / (vals.length : ℚ)

/-- The values of a metric column that are not missing
(df.loc[valid_mask, metric]). -/
def presentVals (col : List (Option ℚ)) : List ℚ :=
  col.filterMap id

/-- Score of a single cell of a metric column: a missing cell receives the
penalized neutral score 0.5 * (1 - penalty); a present value is ranked by
percentile over the present values, inverted for lower-is-better. -/
def scoreCell (valid : List ℚ) (cfg : MetricCfg) : Option ℚ → ℚ
  | none => 1/2 * (1 - cfg.penalty)
  | some x =>
    match cfg.direction with
    | Direction.lower => 1 - pctRank valid x
    | Direction.higher => pctRank valid x

/-- The in-frame branch of compute_metric_score: per-fund scores of one
metric column that is present in the dataframe. -/
def computeColScore (col : List (Option ℚ)) (cfg : MetricCfg) : List ℚ :=
  col.map (scoreCell (presentVals col) cfg)

/-- Column lookup in a tabular frame; none models a missing column. -/
def getCol {α : Type} (cols : List (String × List α)) (name : String) :
    Option (List α) :=
  (cols.find? (fun c => c.1 == name)).map Prod.snd

/-- A quantitative input frame: an explicit row count and named metric
columns of possibly-missing numeric values. -/
structure QuantTable where
  nRows : ℕ
  cols : List (String × List (Option ℚ))

/-- compute_metric_score: a metric column absent from the frame yields the
penalized neutral score for every fund (the guarded branch at the top of
the function); otherwise the column is scored in place. -/
def compute_metric_score (df : QuantTable) (metric : String) (cfg : MetricCfg) :
    List ℚ :=
  match getCol df.cols metric with
  | none => List.replicate df.nRows (1/2 * (1 - cfg.penalty))
  | some col => computeColScore col cfg

/-- calculate_composite_score: the weighted sum of the per-metric scores,
normalized by total_weight and scaled to 0-100, one value per fund. -/
def calculate_composite_score (df : QuantTable)
    (metrics : List (String × MetricCfg)) (total_weight : ℚ) : List ℚ :=
  (List.range df.nRows).map (fun i =>
    ((metrics.map (fun m =>
        (compute_metric_score df m.1 m.2).getD i 0 * m.2.weight)).sum)
      / total_weight * 100)

/-- The quantitative pipeline of scoring_engine.main minus file I/O:
validate_weights (which only warns), then per-metric scoring, then the
composite score. -/
def run_quant_pipeline (metrics : List (String × MetricCfg))
    (df : QuantTable) : List ℚ :=
  calculate_composite_score df metrics (validate_weights metrics).1

/-! ## Score combination and quadrants (scripts/combine_scores.py) -/

/-- get_combination_config: quantitative_weight 0.6, qualitative_weight 0.4. -/
def get_combination_config : ℚ × ℚ := (3/5, 2/5)

/-- One row of the quantitative score frame selected by merge_scores. -/
structure QuantRow where
  name : String
  quantScore : ℚ
  tier : String
deriving DecidableEq

/-- One row of the merged frame: a fund present in both score sources. -/
structure MergedRow where
  name : String
  quantScore : ℚ
  tier : String
  qualScore : ℚ
deriving DecidableEq

/-- merge_scores: inner join of the quantitative rows with the qualitative
(Fund Name, Qualitative Score) rows on Fund Name. -/
def merge_scores (quant : List QuantRow) (qual : List (String × ℚ)) :
    List MergedRow :=
  quant.filterMap (fun r =>
    (qual.find? (fun q => q.1 == r.name)).map
      (fun q => ⟨r.name, r.quantScore, r.tier, q.2⟩))

/-- The combined-score formula of calculate_combined_score. -/
def combinedScore (cfg : ℚ × ℚ) (quantScore qualScore : ℚ) : ℚ :=
  quantScore * cfg.1 + qualScore * cfg.2

/-- calculate_combined_score: append the Combined Score column. -/
def calculate_combined_score (rows : List MergedRow) (cfg : ℚ × ℚ) :
    List (MergedRow × ℚ) :=
  rows.map (fun r => (r, combinedScore cfg r.quantScore r.qualScore))

/-- The two composite scores of one fund in the merged frame. -/
structure FundScores where
  quant : ℚ
  qual : ℚ
deriving DecidableEq

/-- pandas linear-interpolation quantile of a list of values: sort, take
the fractional position q * (n - 1) and interpolate between the two
neighbouring order statistics. -/
def quantile (xs : List ℚ) (q : ℚ) : ℚ :=
  let s := List.insertionSort (fun a b => a ≤ b) xs
  let pos : ℚ := q * ((s.length : ℚ) - 1)
  let k : ℕ := (Int.floor pos).toNat
  let lo := s.getD k 0
  let hi := s.getD (k + 1) lo
  lo + (pos - (k : ℚ)) * (hi - lo)

/-- pandas Series.median, the 0.5 linear-interpolation quantile. -/
def median (xs : List ℚ) : ℚ := quantile xs (1/2)

/-- The np.select condition/choice cascade of assign_quadrant for one
fund, given the two population medians; the default is "N/A". -/
def quadrantLabel (qualMed quantMed : ℚ) (f : FundScores) : String :=
  if f.qual ≥ qualMed ∧ f.quant ≥ quantMed then
    "Top Tier (High Qual, High Quant)"
  else if f.qual < qualMed ∧ f.quant ≥ quantMed then
    "Quant Leaders (Low Qual, High Quant)"
  else if f.qual ≥ qualMed ∧ f.quant < quantMed then
    "Qualitative Gems (High Qual, Low Quant)"
  else if f.qual < qualMed ∧ f.quant < quantMed then
    "Development Area (Low Qual, Low Quant)"
  else "N/A"

/-- assign_quadrant: compute the two medians of the population and label
every fund by the condition cascade. -/
def assign_quadrant (pop : List FundScores) : List String :=
  let qualMed := median (pop.map FundScores.qual)
  let quantMed := median (pop.map FundScores.quant)
  pop.map (quadrantLabel qualMed quantMed)

/-! ## Tier assignment (scripts/tier_explainer.py and app.py) -/

/-- get_tier_thresholds: the 75th and 50th percentile of the Combined
Score distribution. -/
def get_tier_thresholds (scores : List ℚ) : ℚ × ℚ :=
  (quantile scores (3/4), quantile scores (1/2))

/-- get_tier_explanation: tier and justification from the two cutoffs. -/
def get_tier_explanation (score : ℚ) (thresholds : ℚ × ℚ) : String × String :=
  if score ≥ thresholds.1 then
    ("Tier 1",
     "This fund ranks in the top 25% of its peers, demonstrating exceptional overall performance in both quantitative and qualitative metrics.")
  else if score ≥ thresholds.2 then
    ("Tier 2",
     "This fund ranks in the top 50% of its peers, showing strong overall results that place it in the upper half of the funds analyzed.")
  else
    ("Tier 3",
     "This fund is in the bottom 50% of its peers, indicating there are significant opportunities for improvement across its scoring metrics.")

/-- The per-population tier report of tier_explainer.main (equivalently
app.py apply_tier_and_justification at the default 75/50 cutoffs):
thresholds from the full population, then one tier per fund. -/
def tier_report (scores : List ℚ) : List (String × String) :=
  let th := get_tier_thresholds scores
  scores.map (fun s => get_tier_explanation s th)

/-! ## Qualitative scoring engine (scripts/qualitative_scoring_engine.py) -/

/-- score_attribute: map each label through the lookup table; an absent
label or a missing cell maps to NaN and fillna(0) turns it into 0. -/
def score_attribute (labels : List (Option String))
    (mapping : List (String × ℤ)) : List ℤ :=
  labels.map (fun l =>
    match l with
    | none => 0
    | some s => ((mapping.find? (fun kv => kv.1 == s)).map Prod.snd).getD 0)

/-- A numeric token recognised by the tenure regex: integer digits,
an optional dot, then fractional digits. -/
structure NumToken where
  intPart : ℕ
  fracPart : ℕ
  fracLen : ℕ
deriving DecidableEq

/-- The rational value of one recognised numeric token. -/
def tokenVal (t : NumToken) : ℚ :=
  (t.intPart : ℚ) + (t.fracPart : ℚ) / ((10 : ℚ) ^ t.fracLen)

/-- One step of the left-to-right scan that extracts every maximal match
of the digit pattern (digits, optional dot, digits) from a string, as
re.findall does in parse_tenure.  The state is the list of finished
tokens and the token in progress (with a flag for a consumed dot). -/
def tenureStep (st : List NumToken × Option (NumToken × Bool)) (c : Char) :
    List NumToken × Option (NumToken × Bool) :=
  if c.isDigit then
    let d := c.toNat - 48
    match st.2 with
    | none => (st.1, some (⟨d, 0, 0⟩, false))
    | some (t, false) => (st.1, some (⟨t.intPart * 10 + d, 0, 0⟩, false))
    | some (t, true) =>
        (st.1, some (⟨t.intPart, t.fracPart * 10 + d, t.fracLen + 1⟩, true))
  else if c = '.' then
    match st.2 with
    | none => (st.1, none)
    | some (t, false) => (st.1, some (t, true))
    | some (t, true) => (st.1 ++ [t], none)
  else
    match st.2 with
    | none => (st.1, none)
    | some (t, _) => (st.1 ++ [t], none)

/-- All numeric substrings of s recognised by the tenure regex. -/
def extractTokens (s : String) : List NumToken :=
  let st := s.toList.foldl tenureStep ([], none)
  match st.2 with
  | none => st.1
  | some (t, _) => st.1 ++ [t]

/-- parse_tenure: a non-string cell parses to 0; otherwise the mean of
every number found in the string, or 0 when none is found. -/
def parse_tenure : Option String → ℚ
  | none => 0
  | some s =>
    let ts := extractTokens s
    if ts.length = 0 then 0 else (ts.map tokenVal).sum / (ts.length : ℚ)

/-- Series.clip(0, 1). -/
def clip01 (x : ℚ) : ℚ := max 0 (min 1 x)

/-- A qualitative input frame: named columns of possibly-missing text. -/
structure QualTable where
  nRows : ℕ
  cols : List (String × List (Option String))

/-- The qualitative configuration: label mappings per categorical
attribute and the weights of the weighted composite. -/
structure QualConfig where
  mappings : List (String × List (String × ℤ))
  weights : List (String × ℚ)

/-- get_qualitative_config: the score mappings and attribute weights. -/
def get_qualitative_config : QualConfig :=
  { mappings :=
      [("Team Depth",
        [("Large", 4), ("Medium-High", 3), ("Medium", 2), ("Small", 1)]),
       ("Transparency & Reporting",
        [("Very High", 4), ("High", 3), ("Medium-High", 2), ("Medium", 1),
         ("Low", 0)]),
       ("Consistency of Process",
        [("Very Strong", 4), ("Strong", 3), ("Moderate", 2),
         ("Still developing", 1), ("Too early to judge", 0),
         ("Developing", 1), ("Still forming", 1)])],
    weights :=
      [("Manager Tenure Score", 1/5),
       ("Team Depth Score", 1/4),
       ("Transparency & Reporting Score", 1/5),
       ("Consistency of Process Score", 7/20)] }

/-- The raw-score loop of calculate_final_score: score every configured
categorical attribute; an absent attribute column is an unguarded
df[attribute] access, i.e. a KeyError. -/
def scoreMappedCols (df : QualTable) :
    List (String × List (String × ℤ)) → Except String (List (String × List ℤ))
  | [] => Except.ok []
  | (attr, mapping) :: rest =>
    match getCol df.cols attr with
    | none => Except.error ("KeyError: " ++ attr)
    | some col =>
      match scoreMappedCols df rest with
      | Except.error e => Except.error e
      | Except.ok tl => Except.ok ((attr, score_attribute col mapping) :: tl)

/-- Elementwise acc + vals * w, one weighted term of the composite. -/
def addWeighted (acc : List ℚ) (vals : List ℚ) (w : ℚ) : List ℚ :=
  List.zipWith (fun a v => a + v * w) acc vals

/-- The output frame of calculate_final_score. -/
structure QualResult where
  fundNames : List (Option String)
  rawScores : List (String × List ℤ)
  totalScores : List ℤ
  averageScores : List ℚ
  qualScores : List ℚ
deriving DecidableEq

/-- calculate_final_score: raw scores for every mapped attribute (KeyError
when an attribute column is absent), total and average raw scores, the
normalized tenure score (unguarded access to the tenure column), per-
attribute 0-1 normalization, and the weighted composite scaled to 100. -/
def calculate_final_score (df : QualTable) (config : QualConfig) :
    Except String QualResult :=
  match getCol df.cols "Fund Name" with
  | none => Except.error "KeyError: Fund Name"
  | some fundCol =>
    match scoreMappedCols df config.mappings with
    | Except.error e => Except.error e
    | Except.ok raw =>
      let totals := (List.range df.nRows).map
        (fun i => (raw.map (fun ac => ac.2.getD i 0)).sum)
      let averages := totals.map
        (fun t => (t : ℚ) / (config.mappings.length : ℚ))
      match getCol df.cols "Manager Tenure (Years)" with
      | none => Except.error "KeyError: Manager Tenure (Years)"
      | some tenureCol =>
        let tenureScores := tenureCol.map (fun c => clip01 (parse_tenure c / 20))
        let normCols : List (String × List ℚ) :=
          ("Manager Tenure Score", tenureScores) ::
          (config.mappings.zip raw).map (fun p =>
            let maxv : ℤ := (p.1.2.map Prod.snd).foldl max 0
            (p.1.1 ++ " Score",
             if 0 < maxv then p.2.2.map (fun z => (z : ℚ) / (maxv : ℚ))
             else List.replicate df.nRows 0))
        let total_weight := (config.weights.map Prod.snd).sum
        let weighted := config.weights.foldl (fun acc cw =>
            match normCols.find? (fun nc => nc.1 == cw.1) with
            | none => acc
            | some nc => addWeighted acc nc.2 cw.2)
          (List.replicate df.nRows 0)
        let qualScores :=
          if 0 < total_weight then weighted.map (fun v => v / total_weight * 100)
          else List.replicate df.nRows 0
        Except.ok ⟨fundCol, raw, totals, averages, qualScores⟩

/-! ## Counting and percentile-rank lemmas -/

theorem countLt_add_countEq (vals : List ℚ) (x : ℚ) :
    countLt vals x + countEq vals x = countLe vals x := by
  induction vals with
  | nil => rfl
  | cons a t ih =>
    unfold countLt countEq countLe at *
    rw [List.countP_cons, List.countP_cons, List.countP_cons]
    simp only [decide_eq_true_eq]
    rcases lt_trichotomy a x with h | h | h
    · rw [if_pos h, if_pos (le_of_lt h), if_neg (ne_of_lt h)]; omega
    · subst h
      rw [if_neg (lt_irrefl a), if_pos rfl, if_pos (le_refl a)]; omega
    · rw [if_neg (not_lt.mpr h.le), if_neg (ne_of_gt h), if_neg (not_le.mpr h)]
      omega

theorem countLe_le_countLt (vals : List ℚ) {x y : ℚ} (h : x < y) :
    countLe vals x ≤ countLt vals y := by
  apply List.countP_mono_left
  intro v _ hv
  simp only [decide_eq_true_eq] at hv ⊢
  exact lt_of_le_of_lt hv h

theorem countLe_le_length (vals : List ℚ) (x : ℚ) :
    countLe vals x ≤ vals.length := by
  unfold countLe
  exact List.countP_le_length _

theorem countLe_eq_length (vals : List ℚ) {x : ℚ} (h : ∀ v ∈ vals, v ≤ x) :
    countLe vals x = vals.length := by
  apply List.countP_eq_length.mpr
  intro a ha
  simp only [decide_eq_true_eq]
  exact h a ha

theorem one_le_countEq (vals : List ℚ) {x : ℚ} (h : x ∈ vals) :
    1 ≤ countEq vals x := by
  have : 0 < countEq vals x := by
    apply List.countP_pos_iff.mpr
    exact ⟨x, h, by simp⟩
  omega

theorem pctRank_mono (vals : List ℚ) {x y : ℚ} (h : x ≤ y) :
    pctRank vals x ≤ pctRank vals y := by
  rcases eq_or_lt_of_le h with rfl | hlt
  · exact le_refl _
  · unfold pctRank
    rcases Nat.eq_zero_or_pos vals.length with h0 | hpos
    · simp [h0]
    · have hn : (0 : ℚ) < (vals.length : ℚ) := by exact_mod_cast hpos
      rw [div_le_div_iff_of_pos_right hn]
      have key : countLt vals x + countEq vals x ≤ countLt vals y :=
        countLt_add_countEq vals x ▸ countLe_le_countLt vals hlt
      have keyQ : (countLt vals x : ℚ) + (countEq vals x : ℚ) ≤
          (countLt vals y : ℚ) := by exact_mod_cast key
      have hb : (0 : ℚ) ≤ (countEq vals x : ℚ) := Nat.cast_nonneg _
      have hd : (0 : ℚ) ≤ (countEq vals y : ℚ) := Nat.cast_nonneg _
      linarith

theorem pctRank_le_one (vals : List ℚ) {x : ℚ} (hx : x ∈ vals) :
    pctRank vals x ≤ 1 := by
  unfold pctRank
  have hpos : 0 < vals.length := List.length_pos.mpr (List.ne_nil_of_mem hx)
  have hn : (0 : ℚ) < (vals.length : ℚ) := by exact_mod_cast hpos
  rw [div_le_one hn]
  have h1 : 1 ≤ countEq vals x := one_le_countEq vals hx
  have h2 : countLt vals x + countEq vals x ≤ vals.length :=
    countLt_add_countEq vals x ▸ countLe_le_length vals x
  have h1Q : (1 : ℚ) ≤ (countEq vals x : ℚ) := by exact_mod_cast h1
  have h2Q : (countLt vals x : ℚ) + (countEq vals x : ℚ) ≤
      (vals.length : ℚ) := by exact_mod_cast h2
  linarith

theorem half_le_pctRank_of_max (vals : List ℚ) {x : ℚ} (hx : x ∈ vals)
    (hmax : ∀ y ∈ vals, y ≤ x) : 1/2 ≤ pctRank vals x := by
  unfold pctRank
  have hpos : 0 < vals.length := List.length_pos.mpr (List.ne_nil_of_mem hx)
  have hn : (0 : ℚ) < (vals.length : ℚ) := by exact_mod_cast hpos
  rw [le_div_iff₀ hn]
  have hfull : countLt vals x + countEq vals x = vals.length := by
    rw [countLt_add_countEq]; exact countLe_eq_length vals hmax
  have hle : countEq vals x ≤ vals.length := by omega
  have hfullQ : (countLt vals x : ℚ) = (vals.length : ℚ) - (countEq vals x : ℚ) := by
    have := hfull; push_cast [← this]; ring
  have hleQ : (countEq vals x : ℚ) ≤ (vals.length : ℚ) := by exact_mod_cast hle
  rw [hfullQ]
  linarith

theorem pctRank_eq_one_of_unique_max (vals : List ℚ) {x : ℚ} (hx : x ∈ vals)
    (hmax : ∀ y ∈ vals, y ≤ x) (huniq : countEq vals x = 1) :
    pctRank vals x = 1 := by
  unfold pctRank
  have hpos : 0 < vals.length := List.length_pos.mpr (List.ne_nil_of_mem hx)
  have hn : (vals.length : ℚ) ≠ 0 := by
    exact_mod_cast Nat.pos_iff_ne_zero.mp hpos
  have hfull : countLt vals x + countEq vals x = vals.length := by
    rw [countLt_add_countEq]; exact countLe_eq_length vals hmax
  rw [huniq] at hfull
  rw [div_eq_one_iff_eq hn, huniq]
  push_cast [← hfull]
  ring

/-! ## Claim C2 -/

/-- C2: a fund missing a metric receives the constant penalized neutral
score 0.5 * (1 - penalty_fraction), independent of the rest of the
population, and appending further missing entries never changes the score
of any existing fund (missing entries do not participate in the
percentile ranking of reporters). -/
theorem c2_missing_value_policy (col : List (Option ℚ)) (cfg : MetricCfg)
    (h0 : 0 ≤ cfg.penalty) (h1 : cfg.penalty ≤ 1) :
    (∀ i : ℕ, col[i]? = some none →
      (computeColScore col cfg)[i]? = some (1/2 * (1 - cfg.penalty))) ∧
    (∀ k i : ℕ, i < col.length →
      (computeColScore (col ++ List.replicate k none) cfg)[i]? =
        (computeColScore col cfg)[i]?) := by
  constructor
  · intro i hi
    simp [computeColScore, List.getElem?_map, hi, scoreCell]
  · intro k i hi
    have hpres : presentVals (col ++ List.replicate k none) = presentVals col := by
      unfold presentVals
      rw [List.filterMap_append]
      have : (List.replicate k (none : Option ℚ)).filterMap id = [] := by
        apply List.filterMap_eq_nil_iff.mpr
        intro a ha
        rw [List.eq_of_mem_replicate ha]; rfl
      rw [this, List.append_nil]
    unfold computeColScore
    rw [hpres, List.map_append]
    exact List.getElem?_append_left (by simpa using hi)

/-- Witness for C2 at a concrete population. -/
theorem c2_missing_value_policy_witness :
    ((0 : ℚ) ≤ 1/10 ∧ (1 : ℚ)/10 ≤ 1) ∧
    ((computeColScore [some 1, none] ⟨1/10, 1/10, Direction.higher⟩)[1]? =
       some (1/2 * (1 - 1/10)) ∧
     (computeColScore ([some 1, none] ++ List.replicate 3 none)
        ⟨1/10, 1/10, Direction.higher⟩)[0]? =
       (computeColScore [some 1, none] ⟨1/10, 1/10, Direction.higher⟩)[0]?) :=
  ⟨⟨by norm_num, by norm_num⟩,
   (c2_missing_value_policy [some 1, none] ⟨1/10, 1/10, Direction.higher⟩
      (by norm_num) (by norm_num)).1 1 (by decide),
   (c2_missing_value_policy [some 1, none] ⟨1/10, 1/10, Direction.higher⟩
      (by norm_num) (by norm_num)).2 3 0 (by decide)⟩

/-! ## Claim C4 -/

/-- C4 counterexample: with every fund missing the metric and penalty 0.2,
every fund receives 0.5 * (1 - 0.2) = 0.4, not the neutral score 0.5 the
claim states. -/
theorem c4_counterexample :
    computeColScore [none, none] ⟨1/10, 1/5, Direction.lower⟩ = [2/5, 2/5] ∧
    ((2 : ℚ)/5) ≠ 1/2 := by
  refine ⟨?_, by norm_num⟩
  norm_num [computeColScore, scoreCell]

/-- C4 (amended): when every fund is missing a metric, the normalizer
returns the penalized neutral score 0.5 * (1 - penalty) for every fund
(equal to the neutral score only when the penalty is zero); it is total
and never divides by zero. -/
theorem c4_all_missing_penalized_neutral (col : List (Option ℚ))
    (cfg : MetricCfg) (h : ∀ c ∈ col, c = none) :
    computeColScore col cfg =
      List.replicate col.length (1/2 * (1 - cfg.penalty)) := by
  unfold computeColScore
  have hlen : (List.map (scoreCell (presentVals col) cfg) col).length = col.length :=
    List.length_map _ _
  rw [← hlen]
  apply List.eq_replicate_of_mem
  intro b hb
  rcases List.mem_map.mp hb with ⟨c, hc, rfl⟩
  rw [h c hc]
  rfl

/-- Witness for C4 (amended) at a concrete all-missing population. -/
theorem c4_all_missing_penalized_neutral_witness :
    (∀ c ∈ ([none, none] : List (Option ℚ)), c = none) ∧
    computeColScore [none, none] ⟨1/10, 1/5, Direction.lower⟩ =
      List.replicate ([none, none] : List (Option ℚ)).length (1/2 * (1 - 1/5)) :=
  ⟨by simp,
   c4_all_missing_penalized_neutral [none, none] ⟨1/10, 1/5, Direction.lower⟩
     (by decide)⟩

/-! ## Quadrant case analysis -/

theorem quadrantLabel_topTier {qm tm : ℚ} {f : FundScores}
    (hq : qm ≤ f.qual) (ht : tm ≤ f.quant) :
    quadrantLabel qm tm f = "Top Tier (High Qual, High Quant)" := by
  unfold quadrantLabel
  rw [if_pos ⟨hq, ht⟩]

theorem quadrantLabel_quantLeaders {qm tm : ℚ} {f : FundScores}
    (hq : f.qual < qm) (ht : tm ≤ f.quant) :
    quadrantLabel qm tm f = "Quant Leaders (Low Qual, High Quant)" := by
  unfold quadrantLabel
  rw [if_neg (fun h => absurd h.1 (not_le.mpr hq)), if_pos ⟨hq, ht⟩]

theorem quadrantLabel_qualGems {qm tm : ℚ} {f : FundScores}
    (hq : qm ≤ f.qual) (ht : f.quant < tm) :
    quadrantLabel qm tm f = "Qualitative Gems (High Qual, Low Quant)" := by
  unfold quadrantLabel
  rw [if_neg (fun h => absurd h.2 (not_le.mpr ht)),
    if_neg (fun h => absurd hq (not_le.mpr h.1)), if_pos ⟨hq, ht⟩]

theorem quadrantLabel_devArea {qm tm : ℚ} {f : FundScores}
    (hq : f.qual < qm) (ht : f.quant < tm) :
    quadrantLabel qm tm f = "Development Area (Low Qual, Low Quant)" := by
  unfold quadrantLabel
  rw [if_neg (fun h => absurd h.1 (not_le.mpr hq)),
    if_neg (fun h => absurd h.2 (not_le.mpr ht)),
    if_neg (fun h => absurd h.1 (not_le.mpr hq)), if_pos ⟨hq, ht⟩]

/-! ## Claim C8 -/

/-- C8: the quadrant label of a fund is exactly determined by comparing
its two composite scores against the respective population medians
(at-or-above versus below), and on the population
(quant, qual) = (10,10), (90,90), (10,90), (90,10) all four funds get
distinct quadrant labels. -/
theorem c8_quadrant_assignment :
    (∀ (qm tm : ℚ) (f : FundScores),
      (quadrantLabel qm tm f = "Top Tier (High Qual, High Quant)" ↔
        qm ≤ f.qual ∧ tm ≤ f.quant) ∧
      (quadrantLabel qm tm f = "Quant Leaders (Low Qual, High Quant)" ↔
        f.qual < qm ∧ tm ≤ f.quant) ∧
      (quadrantLabel qm tm f = "Qualitative Gems (High Qual, Low Quant)" ↔
        qm ≤ f.qual ∧ f.quant < tm) ∧
      (quadrantLabel qm tm f = "Development Area (Low Qual, Low Quant)" ↔
        f.qual < qm ∧ f.quant < tm)) ∧
    assign_quadrant [⟨10, 10⟩, ⟨90, 90⟩, ⟨10, 90⟩, ⟨90, 10⟩] =
      ["Development Area (Low Qual, Low Quant)",
       "Top Tier (High Qual, High Quant)",
       "Qualitative Gems (High Qual, Low Quant)",
       "Quant Leaders (Low Qual, High Quant)"] ∧
    List.Pairwise (fun a b => a ≠ b)
      (assign_quadrant [⟨10, 10⟩, ⟨90, 90⟩, ⟨10, 90⟩, ⟨90, 10⟩]) := by
  have hconc : assign_quadrant [⟨10, 10⟩, ⟨90, 90⟩, ⟨10, 90⟩, ⟨90, 10⟩] =
      ["Development Area (Low Qual, Low Quant)",
       "Top Tier (High Qual, High Quant)",
       "Qualitative Gems (High Qual, Low Quant)",
       "Quant Leaders (Low Qual, High Quant)"] := by
    norm_num [assign_quadrant, median, quantile, List.insertionSort,
      List.orderedInsert, quadrantLabel]
  refine ⟨?_, hconc, by rw [hconc]; decide⟩
  intro qm tm f
  rcases le_or_lt qm f.qual with hq | hq <;> rcases le_or_lt tm f.quant with ht | ht
  · exact ⟨iff_of_true (quadrantLabel_topTier hq ht) ⟨hq, ht⟩,
      iff_of_false (by rw [quadrantLabel_topTier hq ht]; decide)
        (fun h => absurd h.1 (not_lt.mpr hq)),
      iff_of_false (by rw [quadrantLabel_topTier hq ht]; decide)
        (fun h => absurd h.2 (not_lt.mpr ht)),
      iff_of_false (by rw [quadrantLabel_topTier hq ht]; decide)
        (fun h => absurd h.1 (not_lt.mpr hq))⟩
  · exact ⟨iff_of_false (by rw [quadrantLabel_qualGems hq ht]; decide)
        (fun h => absurd h.2 (not_le.mpr ht)),
      iff_of_false (by rw [quadrantLabel_qualGems hq ht]; decide)
        (fun h => absurd h.1 (not_lt.mpr hq)),
      iff_of_true (quadrantLabel_qualGems hq ht) ⟨hq, ht⟩,
      iff_of_false (by rw [quadrantLabel_qualGems hq ht]; decide)
        (fun h => absurd h.1 (not_lt.mpr hq))⟩
  · exact ⟨iff_of_false (by rw [quadrantLabel_quantLeaders hq ht]; decide)
        (fun h => absurd h.1 (not_le.mpr hq)),
      iff_of_true (quadrantLabel_quantLeaders hq ht) ⟨hq, ht⟩,
      iff_of_false (by rw [quadrantLabel_quantLeaders hq ht]; decide)
        (fun h => absurd h.1 (not_le.mpr hq)),
      iff_of_false (by rw [quadrantLabel_quantLeaders hq ht]; decide)
        (fun h => absurd h.2 (not_lt.mpr ht))⟩
  · exact ⟨iff_of_false (by rw [quadrantLabel_devArea hq ht]; decide)
        (fun h => absurd h.1 (not_le.mpr hq)),
      iff_of_false (by rw [quadrantLabel_devArea hq ht]; decide)
        (fun h => absurd h.2 (not_le.mpr ht)),
      iff_of_false (by rw [quadrantLabel_devArea hq ht]; decide)
        (fun h => absurd h.1 (not_le.mpr hq)),
      iff_of_true (quadrantLabel_devArea hq ht) ⟨hq, ht⟩⟩

/-! ## Claim C10 -/

/-- C10: every label produced by assign_quadrant is one of the four
quadrant names; the default branch "N/A" of the np.select cascade is
unreachable, because the four median-comparison conditions are exhaustive
over present scores. -/
theorem c10_na_unreachable (pop : List FundScores) (L : String)
    (hL : L ∈ assign_quadrant pop) :
    (L = "Top Tier (High Qual, High Quant)" ∨
     L = "Quant Leaders (Low Qual, High Quant)" ∨
     L = "Qualitative Gems (High Qual, Low Quant)" ∨
     L = "Development Area (Low Qual, Low Quant)") ∧
    L ≠ "N/A" := by
  simp only [assign_quadrant] at hL
  rcases List.mem_map.mp hL with ⟨f, _, rfl⟩
  rcases le_or_lt (median (List.map FundScores.qual pop)) f.qual with hq | hq <;>
    rcases le_or_lt (median (List.map FundScores.quant pop)) f.quant with ht | ht
  · rw [quadrantLabel_topTier hq ht]
    exact ⟨Or.inl rfl, by decide⟩
  · rw [quadrantLabel_qualGems hq ht]
    exact ⟨Or.inr (Or.inr (Or.inl rfl)), by decide⟩
  · rw [quadrantLabel_quantLeaders hq ht]
    exact ⟨Or.inr (Or.inl rfl), by decide⟩
  · rw [quadrantLabel_devArea hq ht]
    exact ⟨Or.inr (Or.inr (Or.inr rfl)), by decide⟩

/-- Witness for C10 at a concrete population and label. -/
theorem c10_na_unreachable_witness :
    ("Top Tier (High Qual, High Quant)" ∈
       assign_quadrant [⟨10, 10⟩, ⟨90, 90⟩, ⟨10, 90⟩, ⟨90, 10⟩]) ∧
    (("Top Tier (High Qual, High Quant)" = "Top Tier (High Qual, High Quant)" ∨
      "Top Tier (High Qual, High Quant)" = "Quant Leaders (Low Qual, High Quant)" ∨
      "Top Tier (High Qual, High Quant)" = "Qualitative Gems (High Qual, Low Quant)" ∨
      "Top Tier (High Qual, High Quant)" = "Development Area (Low Qual, Low Quant)") ∧
     "Top Tier (High Qual, High Quant)" ≠ "N/A") := by
  have hmem : "Top Tier (High Qual, High Quant)" ∈
      assign_quadrant [⟨10, 10⟩, ⟨90, 90⟩, ⟨10, 90⟩, ⟨90, 10⟩] := by
    norm_num [assign_quadrant, median, quantile, List.insertionSort,
      List.orderedInsert, quadrantLabel]
  exact ⟨hmem, c10_na_unreachable _ _ hmem⟩

/-! ## Claim C6 -/

/-- C6: on the merged frame the Score Combiner computes
Combined Score = Quantitative Score * 0.6 + Qualitative Score * 0.4 with
the configured weights, and the combined score is monotone in each
composite holding the other fixed. -/
theorem c6_combined_score (rows : List MergedRow) :
    get_combination_config = (3/5, 2/5) ∧
    (∀ (i : ℕ) (r : MergedRow), rows[i]? = some r →
      (calculate_combined_score rows get_combination_config)[i]? =
        some (r, r.quantScore * (3/5) + r.qualScore * (2/5))) ∧
    (∀ a b c : ℚ, a ≤ b →
      combinedScore get_combination_config a c ≤
        combinedScore get_combination_config b c) ∧
    (∀ a b c : ℚ, b ≤ c →
      combinedScore get_combination_config a b ≤
        combinedScore get_combination_config a c) := by
  refine ⟨rfl, ?_, ?_, ?_⟩
  · intro i r h
    simp [calculate_combined_score, List.getElem?_map, h, combinedScore,
      get_combination_config]
  · intro a b c h
    unfold combinedScore get_combination_config
    have := mul_le_mul_of_nonneg_right h (by norm_num : (0 : ℚ) ≤ 3/5)
    dsimp only
    linarith
  · intro a b c h
    unfold combinedScore get_combination_config
    have := mul_le_mul_of_nonneg_right h (by norm_num : (0 : ℚ) ≤ 2/5)
    dsimp only
    linarith

/-- Witness for C6 at a concrete merged row. -/
theorem c6_combined_score_witness :
    (([⟨"Fund A", 80, "Tier 1", 70⟩] : List MergedRow)[0]? =
       some ⟨"Fund A", 80, "Tier 1", 70⟩) ∧
    ((80 : ℚ) ≤ 90) ∧ ((70 : ℚ) ≤ 75) ∧
    ((calculate_combined_score [⟨"Fund A", 80, "Tier 1", 70⟩]
        get_combination_config)[0]? =
      some (⟨"Fund A", 80, "Tier 1", 70⟩, 80 * (3/5) + 70 * (2/5))) ∧
    combinedScore get_combination_config 80 70 ≤
      combinedScore get_combination_config 90 70 ∧
    combinedScore get_combination_config 80 70 ≤
      combinedScore get_combination_config 80 75 :=
  ⟨rfl, by norm_num, by norm_num,
   (c6_combined_score [⟨"Fund A", 80, "Tier 1", 70⟩]).2.1 0 _ rfl,
   (c6_combined_score [⟨"Fund A", 80, "Tier 1", 70⟩]).2.2.1 80 90 70 (by norm_num),
   (c6_combined_score [⟨"Fund A", 80, "Tier 1", 70⟩]).2.2.2 80 70 75 (by norm_num)⟩

/-! ## Claim C1 -/

/-- C1 counterexample: the shipped configuration has weight sum 0.85,
outside the 0.01 tolerance of 1.0, yet validate_weights only sets the
warning flag and returns the sum, and the pipeline still produces a
composite score for every fund instead of failing. -/
theorem c1_counterexample :
    validate_weights get_scoring_config = (17/20, true) ∧
    (1/100 : ℚ) < |(17/20 : ℚ) - 1| ∧
    run_quant_pipeline get_scoring_config ⟨1, []⟩ = [1485/34] := by
  have habs : |(17/20 : ℚ) - 1| = 3/20 := by
    rw [abs_of_neg (by norm_num : (17/20 : ℚ) - 1 < 0)]
    norm_num
  have hsum : ((get_scoring_config.map (fun m => m.2.weight)).sum : ℚ) = 17/20 := by
    norm_num [get_scoring_config]
  refine ⟨?_, by rw [habs]; norm_num, ?_⟩
  · unfold validate_weights
    rw [hsum]
    norm_num [show |(3 : ℚ)/20| = 3/20 from abs_of_pos (by norm_num)]
  · norm_num [run_quant_pipeline, calculate_composite_score, get_scoring_config,
      validate_weights, compute_metric_score, getCol, List.range_succ]

/-- C1 (amended): validate_weights never rejects a configuration: it
returns the weight sum, and its warning flag is set exactly when the sum
is more than 0.01 away from 1; the pipeline always goes on to produce one
composite score per fund. -/
theorem c1_amended_warn_only (metrics : List (String × MetricCfg))
    (df : QuantTable) :
    ((validate_weights metrics).2 = true ↔
      1/100 < |(metrics.map (fun m => m.2.weight)).sum - 1|) ∧
    (validate_weights metrics).1 = (metrics.map (fun m => m.2.weight)).sum ∧
    (run_quant_pipeline metrics df).length = df.nRows := by
  refine ⟨?_, rfl, ?_⟩
  · simp [validate_weights]
  · simp [run_quant_pipeline, calculate_composite_score]

/-! ## Claim C9 -/

/-- C9: a label absent from the lookup table scores 0 and the scoring is
total (never an error); in particular with map High 3 / Medium 2 / Low 1
the unmapped label VeryHigh scores 0 for the attribute while the whole
qualitative pipeline completes normally. -/
theorem c9_unmapped_label_scores_zero :
    (∀ (labels : List (Option String)) (mapping : List (String × ℤ))
        (i : ℕ) (s : String),
      labels[i]? = some (some s) →
      mapping.find? (fun kv => kv.1 == s) = none →
      (score_attribute labels mapping)[i]? = some 0) ∧
    score_attribute [some "VeryHigh"] [("High", 3), ("Medium", 2), ("Low", 1)] =
      [0] ∧
    calculate_final_score
      ⟨1, [("Fund Name", [some "Fund A"]),
           ("Team Depth", [some "VeryHigh"]),
           ("Manager Tenure (Years)", [some "10"])]⟩
      ⟨[("Team Depth", [("High", 3), ("Medium", 2), ("Low", 1)])],
       [("Team Depth Score", 1)]⟩ =
      Except.ok ⟨[some "Fund A"], [("Team Depth", [0])], [0], [0], [0]⟩ := by
  refine ⟨?_, by decide, ?_⟩
  · intro labels mapping i s hcell hfind
    simp [score_attribute, List.getElem?_map, hcell, hfind]
  · have h1 : scoreMappedCols
        ⟨1, [("Fund Name", [some "Fund A"]),
             ("Team Depth", [some "VeryHigh"]),
             ("Manager Tenure (Years)", [some "10"])]⟩
        [("Team Depth", [("High", 3), ("Medium", 2), ("Low", 1)])] =
        Except.ok [("Team Depth", [0])] := by rfl
    have h2 : getCol [("Fund Name", [some "Fund A"]),
             ("Team Depth", [some "VeryHigh"]),
             ("Manager Tenure (Years)", [some "10"])] "Fund Name" =
        some [some "Fund A"] := by decide
    have h3 : getCol [("Fund Name", [some "Fund A"]),
             ("Team Depth", [some "VeryHigh"]),
             ("Manager Tenure (Years)", [some "10"])] "Manager Tenure (Years)" =
        some [some "10"] := by decide
    have e1 : (("Manager Tenure Score" : String) == "Team Depth Score") = false := by
      simp
    have e2 : (("Team Depth" ++ " Score" : String) == "Team Depth Score") = true := by
      simp
    simp only [calculate_final_score, h1, h2, h3]
    norm_num [List.range_succ, addWeighted, List.find?_cons, e1, e2]

/-- The single-fund label column and label mapping of the C9 scenario. -/
def c9_labels : List (Option String) := [some "VeryHigh"]

def c9_mapping : List (String × ℤ) := [("High", 3), ("Medium", 2), ("Low", 1)]

/-- Witness for C9 at a concrete label and mapping. -/
theorem c9_unmapped_label_scores_zero_witness :
    (c9_labels[0]? = some (some "VeryHigh")) ∧
    (c9_mapping.find? (fun kv => kv.1 == "VeryHigh") = none) ∧
    (score_attribute c9_labels c9_mapping)[0]? = some 0 :=
  ⟨rfl, by decide,
   c9_unmapped_label_scores_zero.1 c9_labels c9_mapping 0 "VeryHigh" rfl
     (by decide)⟩

/-! ## Claim C5 -/

/-- C5 counterexample: an input frame whose Team Depth attribute column is
absent makes the qualitative scorer raise (modelled KeyError) instead of
degrading gracefully, refuting the never-a-hard-failure claim. -/
theorem c5_counterexample :
    getCol ([("Fund Name", [some "Fund A"]),
             ("Manager Tenure (Years)", [some "10"])] :
              List (String × List (Option String))) "Team Depth" = none ∧
    calculate_final_score
      ⟨1, [("Fund Name", [some "Fund A"]),
           ("Manager Tenure (Years)", [some "10"])]⟩
      get_qualitative_config = Except.error "KeyError: Team Depth" := by
  exact ⟨by decide, by rfl⟩

/-- C5 (amended): a metric column absent from the quantitative frame
degrades gracefully (every fund receives the penalized neutral score and
no failure is raised), but an absent qualitative attribute column is a
hard failure: with Fund Name present and Team Depth absent the
qualitative scorer raises the modelled KeyError. -/
theorem c5_schema_mismatch_policy :
    (∀ (df : QuantTable) (metric : String) (cfg : MetricCfg),
      getCol df.cols metric = none →
      compute_metric_score df metric cfg =
        List.replicate df.nRows (1/2 * (1 - cfg.penalty))) ∧
    (∀ df : QualTable, getCol df.cols "Fund Name" ≠ none →
      getCol df.cols "Team Depth" = none →
      calculate_final_score df get_qualitative_config =
        Except.error "KeyError: Team Depth") := by
  constructor
  · intro df metric cfg h
    unfold compute_metric_score
    rw [h]
  · intro df hFN hTD
    cases hfc : getCol df.cols "Fund Name" with
    | none => exact absurd hfc hFN
    | some fc =>
      have hmap : scoreMappedCols df get_qualitative_config.mappings =
          Except.error ("KeyError: " ++ "Team Depth") := by
        simp only [get_qualitative_config, scoreMappedCols, hTD]
      simp only [calculate_final_score, hfc, hmap]
      rfl

/-- Witness for C5 (amended) at concrete frames. -/
theorem c5_schema_mismatch_policy_witness :
    (getCol (⟨2, [("Other Metric", [some 1, none])]⟩ : QuantTable).cols
       "Alpha (Since Inception)" = none) ∧
    (compute_metric_score ⟨2, [("Other Metric", [some 1, none])]⟩
       "Alpha (Since Inception)" ⟨1/20, 3/20, Direction.higher⟩ =
      List.replicate 2 (1/2 * (1 - 3/20))) ∧
    (getCol (⟨1, [("Fund Name", [some "Fund A"]),
                  ("Manager Tenure (Years)", [some "10"])]⟩ : QualTable).cols
       "Fund Name" ≠ none) ∧
    (getCol (⟨1, [("Fund Name", [some "Fund A"]),
                  ("Manager Tenure (Years)", [some "10"])]⟩ : QualTable).cols
       "Team Depth" = none) ∧
    calculate_final_score
      ⟨1, [("Fund Name", [some "Fund A"]),
           ("Manager Tenure (Years)", [some "10"])]⟩
      get_qualitative_config = Except.error "KeyError: Team Depth" :=
  ⟨by decide,
   c5_schema_mismatch_policy.1 ⟨2, [("Other Metric", [some 1, none])]⟩
     "Alpha (Since Inception)" ⟨1/20, 3/20, Direction.higher⟩ (by decide),
   by decide, by decide,
   c5_schema_mismatch_policy.2
     ⟨1, [("Fund Name", [some "Fund A"]),
          ("Manager Tenure (Years)", [some "10"])]⟩
     (by decide) (by decide)⟩

/-! ## Claim C3 -/

/-- C3 counterexample: lower-is-better metric, population of one reporter
(value 5, hence the best raw value) and one missing fund, penalty 0.1:
the best fund scores 1 - 1 = 0 while the missing fund scores 0.45, so the
best-raw-value fund does not receive the top score among all funds. -/
theorem c3_counterexample :
    computeColScore [some 5, none] ⟨1/10, 1/10, Direction.lower⟩ = [0, 9/20] ∧
    ((0 : ℚ) < 9/20) ∧
    (∀ y ∈ presentVals [some 5, none], (5 : ℚ) ≤ y) := by
  refine ⟨?_, by norm_num, ?_⟩
  · norm_num [computeColScore, scoreCell, presentVals, pctRank, countLt, countEq,
      List.filterMap_cons, List.countP_cons]
  · intro y hy
    have : y = 5 := by
      simpa [presentVals] using hy
    rw [this]

/-- C3 (amended): the fund with the best raw value receives the top score
among the funds that reported the metric; for higher_is_better this is
also the top score among all funds including penalized missing ones
(equal to 1 when the maximum is unique), while for lower_is_better the
best reporter tops all reporters (a missing fund can score higher, as the
counterexample shows). -/
theorem c3_best_raw_value_top_score (col : List (Option ℚ)) (cfg : MetricCfg)
    (hp : 0 ≤ cfg.penalty) (i : ℕ) (x : ℚ)
    (hix : col[i]? = some (some x)) :
    (cfg.direction = Direction.higher → (∀ y ∈ presentVals col, y ≤ x) →
      ((computeColScore col cfg)[i]? = some (pctRank (presentVals col) x) ∧
       (∀ s ∈ computeColScore col cfg, s ≤ pctRank (presentVals col) x) ∧
       (countEq (presentVals col) x = 1 →
         pctRank (presentVals col) x = 1))) ∧
    (cfg.direction = Direction.lower → (∀ y ∈ presentVals col, x ≤ y) →
      ((computeColScore col cfg)[i]? =
         some (1 - pctRank (presentVals col) x) ∧
       (∀ (j : ℕ) (y s : ℚ), col[j]? = some (some y) →
         (computeColScore col cfg)[j]? = some s →
         s ≤ 1 - pctRank (presentVals col) x))) := by
  have hxmem : x ∈ presentVals col := by
    unfold presentVals
    exact List.mem_filterMap.mpr
      ⟨some x, List.mem_iff_getElem?.mpr ⟨i, hix⟩, rfl⟩
  constructor
  · intro hdir hmax
    refine ⟨?_, ?_, ?_⟩
    · simp [computeColScore, List.getElem?_map, hix, scoreCell, hdir]
    · intro s hs
      rcases List.mem_map.mp hs with ⟨c, hc, rfl⟩
      cases c with
      | none =>
        have h2 : 1/2 ≤ pctRank (presentVals col) x :=
          half_le_pctRank_of_max _ hxmem hmax
        show scoreCell _ cfg none ≤ _
        unfold scoreCell
        linarith
      | some y =>
        have hy : y ∈ presentVals col :=
          List.mem_filterMap.mpr ⟨some y, hc, rfl⟩
        have hmono := pctRank_mono (presentVals col) (hmax y hy)
        show scoreCell _ cfg (some y) ≤ _
        simp only [scoreCell, hdir]
        exact hmono
    · intro huniq
      exact pctRank_eq_one_of_unique_max _ hxmem hmax huniq
  · intro hdir hmin
    refine ⟨?_, ?_⟩
    · simp [computeColScore, List.getElem?_map, hix, scoreCell, hdir]
    · intro j y s hj hsj
      have hy : y ∈ presentVals col :=
        List.mem_filterMap.mpr
          ⟨some y, List.mem_iff_getElem?.mpr ⟨j, hj⟩, rfl⟩
      have hmono := pctRank_mono (presentVals col) (hmin y hy)
      have heq : 1 - pctRank (presentVals col) y = s := by
        simpa [computeColScore, List.getElem?_map, hj, scoreCell, hdir]
          using hsj
      rw [← heq]
      linarith

/-- Witness for C3 (amended) at a concrete population. -/
theorem c3_best_raw_value_top_score_witness :
    ((0 : ℚ) ≤ 1/10 ∧
     ([some 1, some 2, none] : List (Option ℚ))[1]? = some (some 2)) ∧
    ((Direction.higher = Direction.higher →
      (∀ y ∈ presentVals [some 1, some 2, none], y ≤ (2 : ℚ)) →
      ((computeColScore [some 1, some 2, none]
          ⟨1/10, 1/10, Direction.higher⟩)[1]? =
         some (pctRank (presentVals [some 1, some 2, none]) 2) ∧
       (∀ s ∈ computeColScore [some 1, some 2, none]
          ⟨1/10, 1/10, Direction.higher⟩,
         s ≤ pctRank (presentVals [some 1, some 2, none]) 2) ∧
       (countEq (presentVals [some 1, some 2, none]) 2 = 1 →
         pctRank (presentVals [some 1, some 2, none]) 2 = 1))) ∧
     (Direction.higher = Direction.lower →
      (∀ y ∈ presentVals [some 1, some 2, none], (2 : ℚ) ≤ y) →
      ((computeColScore [some 1, some 2, none]
          ⟨1/10, 1/10, Direction.higher⟩)[1]? =
         some (1 - pctRank (presentVals [some 1, some 2, none]) 2) ∧
       (∀ (j : ℕ) (y s : ℚ),
         ([some 1, some 2, none] : List (Option ℚ))[j]? = some (some y) →
         (computeColScore [some 1, some 2, none]
            ⟨1/10, 1/10, Direction.higher⟩)[j]? = some s →
         s ≤ 1 - pctRank (presentVals [some 1, some 2, none]) 2)))) :=
  ⟨⟨by norm_num, rfl⟩,
   c3_best_raw_value_top_score [some 1, some 2, none]
     ⟨1/10, 1/10, Direction.higher⟩ (by norm_num) 1 2 rfl⟩

/-! ## Sorted-list counting lemmas for the tier quantiles -/

theorem getD_eq_getElem_of_lt (s : List ℚ) {k : ℕ} (hk : k < s.length)
    (d : ℚ) : s.getD k d = s[k] := by
  rw [List.getD_eq_getElem?_getD, List.getElem?_eq_getElem hk]
  rfl

theorem mem_take_le (s : List ℚ) (hs : s.Pairwise (fun a b : ℚ => a ≤ b))
    {k : ℕ} (hk : k < s.length) {v : ℚ} (hv : v ∈ s.take (k + 1)) :
    v ≤ s[k] := by
  rcases List.mem_iff_getElem.mp hv with ⟨i, hi, rfl⟩
  rw [List.getElem_take]
  have hik : i ≤ k := by
    rw [List.length_take] at hi
    omega
  rcases Nat.lt_or_ge i k with hlt | hge
  · exact (List.pairwise_iff_getElem.mp hs) i k
      (by omega) hk hlt
  · have : i = k := by omega
    subst this
    exact le_refl _

theorem mem_drop_ge (s : List ℚ) (hs : s.Pairwise (fun a b : ℚ => a ≤ b))
    {k : ℕ} (hk : k < s.length) {v : ℚ} (hv : v ∈ s.drop k) :
    s[k] ≤ v := by
  rcases List.mem_iff_getElem.mp hv with ⟨j, hj, rfl⟩
  rw [List.getElem_drop]
  rcases Nat.eq_zero_or_pos j with rfl | hpos
  · exact le_refl _
  · have hj2 : k + j < s.length := by
      rw [List.length_drop] at hj
      omega
    exact (List.pairwise_iff_getElem.mp hs) k (k + j) hk hj2 (by omega)

theorem countP_ge_split (s : List ℚ) (c : ℚ) (k : ℕ)
    (hbelow : ∀ v ∈ s.take k, v < c) (habove : ∀ v ∈ s.drop k, c ≤ v) :
    s.countP (fun v => decide (c ≤ v)) = s.length - k := by
  conv_lhs => rw [← List.take_append_drop k s]
  rw [List.countP_append]
  have h1 : (s.take k).countP (fun v => decide (c ≤ v)) = 0 := by
    apply List.countP_eq_zero.mpr
    intro a ha
    simpa using not_le.mpr (hbelow a ha)
  have h2 : (s.drop k).countP (fun v => decide (c ≤ v)) = (s.drop k).length := by
    apply List.countP_eq_length.mpr
    intro a ha
    simpa using habove a ha
  rw [h1, h2, List.length_drop, Nat.zero_add]

theorem countP_partition (p q : ℚ → Prop) [DecidablePred p] [DecidablePred q]
    (l : List ℚ) :
    l.countP (fun v => decide (p v)) +
      l.countP (fun v => decide (¬ p v ∧ q v)) +
      l.countP (fun v => decide (¬ p v ∧ ¬ q v)) = l.length := by
  induction l with
  | nil => rfl
  | cons a t ih =>
    rw [List.countP_cons, List.countP_cons, List.countP_cons, List.length_cons]
    simp only [decide_eq_true_eq]
    by_cases hp : p a <;> by_cases hq : q a
    · rw [if_pos hp, if_neg (fun h => h.1 hp), if_neg (fun h => h.1 hp)]
      omega
    · rw [if_pos hp, if_neg (fun h => h.1 hp), if_neg (fun h => h.1 hp)]
      omega
    · rw [if_neg hp, if_pos ⟨hp, hq⟩, if_neg (fun h => h.2 hq)]
      omega
    · rw [if_neg hp, if_neg (fun h => hq h.2), if_pos ⟨hp, hq⟩]
      omega

theorem countP_not_add (p : ℚ → Prop) [DecidablePred p] (l : List ℚ) :
    l.countP (fun v => decide (p v)) + l.countP (fun v => decide (¬ p v)) =
      l.length := by
  induction l with
  | nil => rfl
  | cons a t ih =>
    rw [List.countP_cons, List.countP_cons, List.length_cons]
    simp only [decide_eq_true_eq]
    by_cases hp : p a
    · rw [if_pos hp, if_neg (fun h => h hp)]
      omega
    · rw [if_neg hp, if_pos hp]
      omega

theorem tier1_iff (v : ℚ) (th : ℚ × ℚ) :
    (get_tier_explanation v th).1 = "Tier 1" ↔ th.1 ≤ v := by
  unfold get_tier_explanation
  split_ifs with h1 h2
  · exact iff_of_true rfl h1
  · exact iff_of_false (by decide) h1
  · exact iff_of_false (by decide) h1

theorem tier2_iff (v : ℚ) (th : ℚ × ℚ) :
    (get_tier_explanation v th).1 = "Tier 2" ↔ ¬ th.1 ≤ v ∧ th.2 ≤ v := by
  unfold get_tier_explanation
  split_ifs with h1 h2
  · exact iff_of_false (by decide) (fun h => h.1 h1)
  · exact iff_of_true rfl ⟨h1, h2⟩
  · exact iff_of_false (by decide) (fun h => h2 h.2)

theorem tier3_iff (v : ℚ) (th : ℚ × ℚ) :
    (get_tier_explanation v th).1 = "Tier 3" ↔ ¬ th.1 ≤ v ∧ ¬ th.2 ≤ v := by
  unfold get_tier_explanation
  split_ifs with h1 h2
  · exact iff_of_false (by decide) (fun h => h.1 h1)
  · exact iff_of_false (by decide) (fun h => h.2 h2)
  · exact iff_of_true rfl ⟨h1, h2⟩

/-! ## Claim C7 -/

/-- C7: for a population of 100 funds with pairwise distinct combined
scores, the 75th/50th-percentile cutoffs of get_tier_thresholds split the
population into exactly 25 Tier 1 funds, 25 Tier 2 funds and 50 Tier 3
funds, and every Tier 1 fund scores strictly above every non-Tier-1 fund
while every Tier 2 fund scores strictly above every Tier 3 fund — i.e.
the tiers are exactly the top 25, the next 25 and the bottom 50. -/
theorem c7_tier_quantile_counts (xs : List ℚ) (hlen : xs.length = 100)
    (hdist : xs.Pairwise (fun a b => a ≠ b)) :
    (xs.countP (fun v =>
        decide ((get_tier_explanation v (get_tier_thresholds xs)).1 =
          "Tier 1")) = 25) ∧
    (xs.countP (fun v =>
        decide ((get_tier_explanation v (get_tier_thresholds xs)).1 =
          "Tier 2")) = 25) ∧
    (xs.countP (fun v =>
        decide ((get_tier_explanation v (get_tier_thresholds xs)).1 =
          "Tier 3")) = 50) ∧
    (∀ a b : ℚ,
      (get_tier_explanation a (get_tier_thresholds xs)).1 = "Tier 1" →
      (get_tier_explanation b (get_tier_thresholds xs)).1 ≠ "Tier 1" →
      b < a) ∧
    (∀ a b : ℚ,
      (get_tier_explanation a (get_tier_thresholds xs)).1 = "Tier 2" →
      (get_tier_explanation b (get_tier_thresholds xs)).1 = "Tier 3" →
      b < a) := by
  set s := List.insertionSort (fun a b : ℚ => a ≤ b) xs with hs_def
  have hperm : s.Perm xs := List.perm_insertionSort _ xs
  have hslen : s.length = 100 := hperm.length_eq.trans hlen
  have hsorted : s.Pairwise (fun a b : ℚ => a ≤ b) :=
    List.sorted_insertionSort _ xs
  have hsne : s.Pairwise (fun a b : ℚ => a ≠ b) :=
    (List.Perm.pairwise_iff (fun h => Ne.symm h) hperm).mpr hdist
  have hstrict : s.Pairwise (fun a b : ℚ => a < b) :=
    (hsorted.and hsne).imp (fun h => lt_of_le_of_ne h.1 h.2)
  have h74 : (74 : ℕ) < s.length := by omega
  have h75 : (75 : ℕ) < s.length := by omega
  have h49 : (49 : ℕ) < s.length := by omega
  have h50 : (50 : ℕ) < s.length := by omega
  have hpair := List.pairwise_iff_getElem.mp hstrict
  have hq1 : quantile xs (3/4) = s[74] + (s[75] - s[74]) / 4 := by
    simp only [quantile]
    rw [← hs_def, hslen]
    norm_num [show Int.floor ((297 : ℚ)/4) = 74 from by
        rw [Int.floor_eq_iff]; norm_num,
      show Int.toNat 74 = 74 from rfl,
      List.getElem?_eq_getElem h74, List.getElem?_eq_getElem h75,
      Option.getD_some]
    ring
  have hq2 : quantile xs (1/2) = s[49] + (s[50] - s[49]) / 2 := by
    simp only [quantile]
    rw [← hs_def, hslen]
    norm_num [show Int.floor ((99 : ℚ)/2) = 49 from by
        rw [Int.floor_eq_iff]; norm_num,
      show Int.toNat 49 = 49 from rfl,
      List.getElem?_eq_getElem h49, List.getElem?_eq_getElem h50,
      Option.getD_some]
    ring
  have hAB : s[74] < s[75] := hpair 74 75 h74 h75 (by omega)
  have hCD : s[49] < s[50] := hpair 49 50 h49 h50 (by omega)
  have hDA : s[50] ≤ s[74] := le_of_lt (hpair 50 74 h50 h74 (by omega))
  have hc1lo : s[74] < quantile xs (3/4) := by rw [hq1]; linarith
  have hc1hi : quantile xs (3/4) ≤ s[75] := by rw [hq1]; linarith
  have hc2lo : s[49] < quantile xs (1/2) := by rw [hq2]; linarith
  have hc2hi : quantile xs (1/2) ≤ s[50] := by rw [hq2]; linarith
  have hc2c1 : quantile xs (1/2) ≤ quantile xs (3/4) := by
    calc quantile xs (1/2) ≤ s[50] := hc2hi
    _ ≤ s[74] := hDA
    _ ≤ quantile xs (3/4) := le_of_lt hc1lo
  have hcut1 : xs.countP (fun v => decide (quantile xs (3/4) ≤ v)) = 25 := by
    have hsplit := countP_ge_split s (quantile xs (3/4)) 75
      (fun v hv => lt_of_le_of_lt (mem_take_le s hsorted h74 hv) hc1lo)
      (fun v hv => le_trans hc1hi (mem_drop_ge s hsorted h75 hv))
    rw [hslen] at hsplit
    rw [← List.Perm.countP_eq _ hperm]
    omega
  have hcut2 : xs.countP (fun v => decide (quantile xs (1/2) ≤ v)) = 50 := by
    have hsplit := countP_ge_split s (quantile xs (1/2)) 50
      (fun v hv => lt_of_le_of_lt (mem_take_le s hsorted h49 hv) hc2lo)
      (fun v hv => le_trans hc2hi (mem_drop_ge s hsorted h50 hv))
    rw [hslen] at hsplit
    rw [← List.Perm.countP_eq _ hperm]
    omega
  have ht1 : xs.countP (fun v =>
      decide ((get_tier_explanation v (get_tier_thresholds xs)).1 =
        "Tier 1")) =
      xs.countP (fun v => decide (quantile xs (3/4) ≤ v)) := by
    apply List.countP_congr
    intro v _
    simp only [decide_eq_true_eq]
    rw [tier1_iff]
    exact Iff.rfl
  have ht2 : xs.countP (fun v =>
      decide ((get_tier_explanation v (get_tier_thresholds xs)).1 =
        "Tier 2")) =
      xs.countP (fun v =>
        decide (¬ quantile xs (3/4) ≤ v ∧ quantile xs (1/2) ≤ v)) := by
    apply List.countP_congr
    intro v _
    simp only [decide_eq_true_eq]
    rw [tier2_iff]
    exact Iff.rfl
  have ht3 : xs.countP (fun v =>
      decide ((get_tier_explanation v (get_tier_thresholds xs)).1 =
        "Tier 3")) =
      xs.countP (fun v =>
        decide (¬ quantile xs (3/4) ≤ v ∧ ¬ quantile xs (1/2) ≤ v)) := by
    apply List.countP_congr
    intro v _
    simp only [decide_eq_true_eq]
    rw [tier3_iff]
    exact Iff.rfl
  have ht3' : xs.countP (fun v =>
      decide (¬ quantile xs (3/4) ≤ v ∧ ¬ quantile xs (1/2) ≤ v)) =
      xs.countP (fun v => decide (¬ quantile xs (1/2) ≤ v)) := by
    apply List.countP_congr
    intro v _
    simp only [decide_eq_true_eq]
    constructor
    · exact fun h => h.2
    · exact fun h => ⟨fun hc1 => h (le_trans hc2c1 hc1), h⟩
  have hnot2 : xs.countP (fun v => decide (quantile xs (1/2) ≤ v)) +
      xs.countP (fun v => decide (¬ quantile xs (1/2) ≤ v)) = xs.length :=
    countP_not_add (fun v => quantile xs (1/2) ≤ v) xs
  have hpart : xs.countP (fun v => decide (quantile xs (3/4) ≤ v)) +
      xs.countP (fun v =>
        decide (¬ quantile xs (3/4) ≤ v ∧ quantile xs (1/2) ≤ v)) +
      xs.countP (fun v =>
        decide (¬ quantile xs (3/4) ≤ v ∧ ¬ quantile xs (1/2) ≤ v)) =
      xs.length :=
    countP_partition (fun v => quantile xs (3/4) ≤ v)
      (fun v => quantile xs (1/2) ≤ v) xs
  refine ⟨by rw [ht1]; exact hcut1, ?_, ?_, ?_, ?_⟩
  · rw [ht2]
    rw [hcut1, hlen] at hpart
    rw [hcut2, hlen] at hnot2
    omega
  · rw [ht3, ht3']
    rw [hcut2, hlen] at hnot2
    omega
  · intro a b ha hb
    have h1 : (get_tier_thresholds xs).1 ≤ a := (tier1_iff a _).mp ha
    have h2 : ¬ (get_tier_thresholds xs).1 ≤ b :=
      fun hc => hb ((tier1_iff b _).mpr hc)
    exact lt_of_lt_of_le (not_le.mp h2) h1
  · intro a b ha hb
    have h1 := (tier2_iff a _).mp ha
    have h2 := (tier3_iff b _).mp hb
    exact lt_of_lt_of_le (not_le.mp h2.2) h1.2

/-- A concrete population of 100 funds with distinct combined scores. -/
def pop100 : List ℚ := (List.range 100).map (fun i : ℕ => ((i : ℚ) + 1))

/-- Witness for C7 at the concrete population of scores 1..100. -/
theorem c7_tier_quantile_counts_witness :
    (pop100.length = 100 ∧ pop100.Pairwise (fun a b => a ≠ b)) ∧
    pop100.countP (fun v =>
      decide ((get_tier_explanation v (get_tier_thresholds pop100)).1 =
        "Tier 1")) = 25 := by
  have hlen : pop100.length = 100 := by
    rw [pop100, List.length_map, List.length_range]
  have hdist : pop100.Pairwise (fun a b => a ≠ b) := by
    rw [pop100]
    refine List.Pairwise.map _ ?_ (List.pairwise_lt_range 100)
    intro a b hab heq
    have h1 : (a : ℚ) < b := by exact_mod_cast hab
    have h2 : (a : ℚ) = b := by linarith
    linarith
  exact ⟨⟨hlen, hdist⟩, (c7_tier_quantile_counts pop100 hlen hdist).1⟩

end SMA
